import Mathlib

/-!
Verification of the novel-injector core: the word-budgeted chunker
(`textProcessor.getNextChunk`), the progress clamp
(`fileManager.updateProgress`), and the injection controller
(`injectionEngine`).  Every definition is a shallow embedding of the
corresponding JavaScript function; JS numbers that stay non-negative are
modelled as `Nat`, the one signed input (the progress index) as `Int`,
and JS strings as Lean `String` / `List Char`.
-/

namespace NovelInjector

/-! ### Word counting (`textProcessor.countWords`) -/

/-- Characters matched by the regex `[一-鿿　-〿！-～]`
in `countWords`: CJK ideographs, CJK punctuation, and full-width forms. -/
def isCJKChar (c : Char) : Bool :=
  (0x4e00 ≤ c.toNat && c.toNat ≤ 0x9fff) ||
  (0x3000 ≤ c.toNat && c.toNat ≤ 0x303f) ||
  (0xff01 ≤ c.toNat && c.toNat ≤ 0xff5e)

/-- A character that survives the CJK blanking and is not whitespace:
these form the "English word" tokens of `countWords`. -/
def tokenChar (c : Char) : Bool :=
  !(isCJKChar c) && !(c.isWhitespace)

/-- Count maximal runs of token characters; `inTok` records whether the
previous character belonged to a token.  This models
`text.replace(cjk, ' ').split(/\s+/).filter(w => w.length > 0).length`. -/
def countTokensAux : List Char → Bool → Nat
  | [], _ => 0
  | c :: cs, inTok =>
    if tokenChar c then (if inTok then 0 else 1) + countTokensAux cs true
    else countTokensAux cs false

def countTokens (cs : List Char) : Nat := countTokensAux cs false

/-- JS `String.trim`: drop whitespace from both ends. -/
def jsTrim (cs : List Char) : List Char :=
  ((cs.dropWhile Char.isWhitespace).reverse.dropWhile Char.isWhitespace).reverse

/-- `textProcessor.countWords`: trim, then (CJK characters counted one
unit each) + (whitespace-delimited tokens after CJK is blanked out). -/
def countWords (text : String) : Nat :=
  let clean := jsTrim text.data
  if clean = [] then 0
  else clean.countP isCJKChar + countTokens clean

/-! ### Break points (`textProcessor.isGoodBreakPoint`) -/

/-- `chineseEndings` from the source: 。！？ the double quote, the single
quote, `)`, ）, and the ellipsis ….  The two quote characters are written
via `Char.ofNat` (34 = double quote, 39 = apostrophe). -/
def chineseEndings : List Char :=
  ['。', '！', '？', Char.ofNat 34, Char.ofNat 39, ')', '）', '…']

/-- `englishEndings` from the source: `.`, `!`, `?`, the double quote,
the single quote and `)`. -/
def englishEndings : List Char :=
  ['.', '!', '?', Char.ofNat 34, Char.ofNat 39, ')']

/-- `textProcessor.isGoodBreakPoint`: last character of the trimmed
paragraph is a recognised terminal mark.  `slice(-1)` of an empty string
is `""`, which is in neither list, hence `false`. -/
def isGoodBreakPoint (paragraph : String) : Bool :=
  match (jsTrim paragraph.data).getLast? with
  | none => false
  | some c => chineseEndings.contains c || englishEndings.contains c

/-! ### Chapter extraction (`textProcessor.extractChapter`) -/

def cjkNumerals : List Char :=
  ['一', '二', '三', '四', '五', '六', '七', '八', '九', '十', '百', '千', '万']

def isChapterNumChar (c : Char) : Bool :=
  cjkNumerals.contains c || c.isDigit

/-- After one or more chapter-number characters, require a character from
`closings` (the character classes are disjoint from the closings, so the
greedy regex is deterministic). -/
def numRunThenClosing (closings : List Char) : List Char → Bool
  | [] => false
  | c :: rest =>
    if isChapterNumChar c then
      match rest with
      | [] => false
      | d :: _ =>
        if isChapterNumChar d then numRunThenClosing closings rest
        else closings.contains d
    else false

/-- Case-insensitive prefix match, returning the remainder on success. -/
def dropCI : List Char → List Char → Option (List Char)
  | [], cs => some cs
  | _, [] => none
  | p :: ps, c :: cs => if c.toLower = p.toLower then dropCI ps cs else none

/-- `\s*\d+` (at least one digit after optional whitespace). -/
def wsStarDigits : List Char → Bool
  | [] => false
  | c :: rest => if c.isWhitespace then wsStarDigits rest else c.isDigit

/-- `\s+\d+` (at least one whitespace then `\s*\d+`). -/
def wsPlusDigits : List Char → Bool
  | [] => false
  | c :: rest => c.isWhitespace && wsStarDigits rest

/-- The five chapter-heading patterns of `extractChapter`, tested against
the characters of a trimmed line. -/
def matchesChapterLine (cs : List Char) : Bool :=
  (match cs with
   | c :: rest => c = '第' && numRunThenClosing ['章'] rest
   | [] => false) ||
  (match cs with
   | c :: rest => c = '第' && numRunThenClosing ['节'] rest
   | [] => false) ||
  (numRunThenClosing ['、', '.']
    (match cs with
     | c :: rest => if c = '第' then rest else cs
     | [] => [])) ||
  (match dropCI "Chapter".data cs with
   | some rest => wsPlusDigits rest
   | none => false) ||
  (match dropCI "Ch.".data cs with
   | some rest => wsStarDigits rest
   | none => false)

/-- Truncation of a matched heading to 50 characters plus an ellipsis. -/
def chapterLabel (t : String) : String :=
  if 50 < t.length then String.mk (t.data.take 50) ++ "..." else t

/-- Fallback label `第N章` grouping every 50 paragraphs. -/
def fallbackChapter (paragraphIndex : Nat) : String :=
  "第" ++ toString (paragraphIndex / 50 + 1) ++ "章"

/-- `content.split('\n')` on character lists; always returns at least one
(possibly empty) line. -/
def splitLines : List Char → List (List Char)
  | [] => [[]]
  | c :: rest =>
    match splitLines rest with
    | [] => [[c]]
    | l :: ls => if c = '\n' then [] :: l :: ls else (c :: l) :: ls

/-- `textProcessor.extractChapter`: scan the content's lines for the
first chapter-heading match, else synthesize the fallback label. -/
def extractChapter (content : String) (paragraphIndex : Nat) : String :=
  if content = "" then fallbackChapter paragraphIndex
  else
    match (splitLines content.data).find? (fun line => matchesChapterLine (jsTrim line)) with
    | some line => chapterLabel (String.mk (jsTrim line))
    | none => fallbackChapter paragraphIndex

/-! ### The chunker loop (`textProcessor.getNextChunk`) -/

structure Chunk where
  content : String
  startParagraph : Nat
  endParagraph : Nat
  paragraphCount : Nat
  wordCount : Nat
  chapter : String
deriving Repr, DecidableEq

/-- The collection loop of `getNextChunk`, walking the paragraph suffix
`rest` (which starts at absolute index `i`).  `total` is the running word
count `W`, `acc` the collected paragraphs, `endP` the exclusive end index.
Each iteration: break if a non-empty chunk would overshoot the budget,
otherwise accept the paragraph; once `W ≥ target`, stop at a good break
point, or absorb-continue when the next paragraph is short (< 100 words),
or stop. -/
def walk (target : Nat) : List String → Nat → Nat → List String → Nat →
    List String × Nat × Nat
  | [], _, total, acc, endP => (acc, total, endP)
  | p :: rest, i, total, acc, endP =>
    let pwc := countWords p
    if 0 < total ∧ target < total + pwc then (acc, total, endP)
    else
      let acc' := acc ++ [p]
      let total' := total + pwc
      let endP' := i + 1
      if target ≤ total' then
        if isGoodBreakPoint p then (acc', total', endP')
        else
          match rest with
          | [] => (acc', total', endP')
          | next :: _ =>
            if countWords next < 100 then walk target rest (i + 1) total' acc' endP'
            else (acc', total', endP')
      else walk target rest (i + 1) total' acc' endP'

/-- `textProcessor.getNextChunk` as a pure function of
(paragraphs, cursor, budget): returns `none` at or past the end of the
novel, otherwise the collected chunk. -/
def getNextChunk (paragraphs : List String) (currentParagraph : Nat)
    (targetWordCount : Nat) : Option Chunk :=
  if paragraphs.length ≤ currentParagraph then none
  else
    match walk targetWordCount (paragraphs.drop currentParagraph)
        currentParagraph 0 [] currentParagraph with
    | (collected, total, endP) =>
      if collected = [] then none
      else
        let content := String.intercalate "\n\n" collected
        some { content := content
               startParagraph := currentParagraph
               endParagraph := endP
               paragraphCount := collected.length
               wordCount := total
               chapter := extractChapter content currentParagraph }

/-- Total word count of a paragraph list. -/
def wsum (l : List String) : Nat := (l.map countWords).sum

/-- Word count of the half-open paragraph range `[a, b)`. -/
def wsumRange (ps : List String) (a b : Nat) : Nat :=
  wsum ((ps.drop a).take (b - a))

/-! ### Novel store (`fileManager`) -/

structure Novel where
  title : String
  paragraphs : List String
  totalParagraphs : Nat
  currentParagraph : Nat
deriving Repr, DecidableEq

/-- The clamp of `fileManager.updateProgress`:
`Math.max(0, Math.min(paragraphIndex, totalParagraphs - 1))`.
The argument is a JS number (possibly negative), hence `Int`; the result
of the clamp is never negative, so it is stored back as a `Nat`. -/
def clampProgress (totalParagraphs : Nat) (paragraphIndex : Int) : Nat :=
  (max 0 (min paragraphIndex ((totalParagraphs : Int) - 1))).toNat

/-- `fileManager.updateProgress` on a single novel record. -/
def updateProgress (novel : Novel) (paragraphIndex : Int) : Novel :=
  { novel with currentParagraph := clampProgress novel.totalParagraphs paragraphIndex }

/-- `fileManager.getNovel` over the in-memory store (a `Map` keyed by id). -/
def getNovel (novels : List (String × Novel)) (novelId : String) : Option Novel :=
  (novels.find? (fun kv => kv.1 == novelId)).map Prod.snd

/-- `fileManager.updateProgress` lifted to the store. -/
def storeUpdateProgress (novels : List (String × Novel)) (novelId : String)
    (paragraphIndex : Int) : List (String × Novel) :=
  novels.map (fun kv =>
    if kv.1 == novelId then (kv.1, updateProgress kv.2 paragraphIndex) else kv)

/-! ### Injection controller (`injectionEngine`) -/

structure Settings where
  /-- `settings.prefixTemplate`; `none` models an absent key. -/
  prefixTemplate : Option String
  /-- `settings.collapseContent`. -/
  collapseContent : Bool
  /-- `settings.targetWordCount`; `0` is JS-falsy and falls back to the
  default of 500 exactly like an absent key. -/
  targetWordCount : Nat
deriving Repr, DecidableEq

/-- `this.settings.targetWordCount || this.defaultTargetWordCount`. -/
def effectiveTarget (s : Settings) : Nat :=
  if s.targetWordCount = 0 then 500 else s.targetWordCount

structure EngineState where
  isEnabled : Bool
  activeNovelId : Option String
  isAutoPilotEnabled : Bool
  /-- `autoPilotDelay` in milliseconds. -/
  autoPilotDelay : Nat
  /-- The armed `setTimeout` handle, modelled by its absolute fire time;
  `none` means no timer is armed. -/
  autoPilotTimer : Option Nat
  settings : Settings
  /-- The `fileManager` store visible to the engine. -/
  novels : List (String × Novel)
deriving Repr, DecidableEq

/-- JS falsiness of `this.activeNovelId` (`null` or the empty string). -/
def optIdFalsy : Option String → Bool
  | none => true
  | some s => s == ""

/-- Contiguous-substring test on character lists (JS `includes`). -/
def occursIn : List Char → List Char → Bool
  | pat, [] => pat.isEmpty
  | pat, c :: rest => List.isPrefixOf pat (c :: rest) || occursIn pat rest

/-- JS `text.includes(pat)`. -/
def jsIncludes (text pat : String) : Bool :=
  occursIn pat.data text.data

/-- `injectionEngine.isNovelContent`: the self-interception marker check. -/
def isNovelContent (text : String) : Bool :=
  jsIncludes text "[小说注入器]" || jsIncludes text "[Novel Injector]"

/-- `injectionEngine.shouldInterceptMessage`. -/
def shouldInterceptMessage (st : EngineState) (text : String) : Bool :=
  if !st.isEnabled then false
  else if optIdFalsy st.activeNovelId then false
  else if isNovelContent text then false
  else true

/-- `injectionEngine.getNextChunk`: look up the active novel, test the
exhaustion condition `currentParagraph >= totalParagraphs`, ask the
chunker, and on success advance the stored cursor to the chunk's
`endParagraph` through `updateProgress`. -/
def engineGetNextChunk (st : EngineState) : Option Chunk × EngineState :=
  if optIdFalsy st.activeNovelId then (none, st)
  else
    match st.activeNovelId with
    | none => (none, st)
    | some nid =>
      match getNovel st.novels nid with
      | none => (none, st)
      | some novel =>
        if novel.totalParagraphs ≤ novel.currentParagraph then (none, st)
        else
          match getNextChunk novel.paragraphs novel.currentParagraph
              (effectiveTarget st.settings) with
          | none => (none, st)
          | some c =>
            (some c,
             { st with novels := storeUpdateProgress st.novels nid c.endParagraph })

/-- `injectionEngine.disable`: leave `Enabled`, drop the active novel and
cancel any armed autopilot timer. -/
def disable (st : EngineState) : EngineState :=
  { st with isEnabled := false, activeNovelId := none, autoPilotTimer := none }

/-! ### Chunk formatting (`injectionEngine.formatChunkContent`) -/

/-- The apostrophe character, written via its code point. -/
def apos : String := String.singleton (Char.ofNat 39)

/-- Scanner for `replaceFirst`: find the first occurrence of `pat` and
splice in `repl`. -/
def replaceFirstAux : List Char → List Char → List Char → List Char
  | [], _, _ => []
  | c :: rest, pat, repl =>
    if List.isPrefixOf pat (c :: rest) then repl ++ (c :: rest).drop pat.length
    else c :: replaceFirstAux rest pat repl

/-- JS `String.replace` with a string pattern: replace the first
occurrence only. -/
def replaceFirst (s pat repl : String) : String :=
  String.mk (replaceFirstAux s.data pat.data repl.data)

/-- `novel?.title || '未知小说'`. -/
def titleOf : Option Novel → String
  | some n => if n.title = "" then "未知小说" else n.title
  | none => "未知小说"

/-- `novel?.totalParagraphs || 0`. -/
def totalOf : Option Novel → Nat
  | some n => n.totalParagraphs
  | none => 0

/-- `injectionEngine.createCollapsibleContent`: the foldable HTML wrapper.
`now` models `Date.now()` used for the element id; the original user
input, when non-empty, is appended after the fold on a `用户原始输入:`
line. -/
def createCollapsibleContent (novelContent originalText : String) (now : Nat) : String :=
  let contentId := "novel_content_" ++ toString now
  let shortPreview :=
    String.mk (novelContent.data.take 100) ++
      (if 100 < novelContent.length then "..." else "")
  "\n<div class=\"novel-injector-collapsible\">\n    <div class=\"novel-injector-header\" onclick=\"toggleNovelContent(" ++
  apos ++ contentId ++ apos ++
  ")\">\n        <strong>📖 小说内容 (点击展开/折叠)</strong>\n        <span class=\"novel-injector-preview\">" ++
  shortPreview ++
  "</span>\n    </div>\n    <div id=\"" ++ contentId ++
  "\" class=\"novel-injector-content\" style=\"display: none;\">\n        <div class=\"novel-injector-text\">" ++
  novelContent ++
  "</div>\n    </div>\n</div>\n" ++
  (if originalText = "" then "" else "\n用户原始输入: " ++ originalText) ++
  "\n        "

/-- `injectionEngine.formatChunkContent`: optional prefix template with
placeholder substitution (placeholders written with escaped braces), then
the chunk body (collapsible or raw), then the fixed marker line
`[小说注入器 - 自动注入]`. -/
def formatChunkContent (settings : Settings) (novel : Option Novel)
    (chunk : Chunk) (originalText : String) (now : Nat) : String :=
  let prefixPart :=
    match settings.prefixTemplate with
    | none => ""
    | some tpl =>
      if tpl = "" then ""
      else
        (replaceFirst (replaceFirst (replaceFirst (replaceFirst (replaceFirst tpl
          "\x7btitle\x7d" (titleOf novel))
          "\x7bchapter\x7d" (if chunk.chapter = "" then "1" else chunk.chapter))
          "\x7bstart_para\x7d" (toString (chunk.startParagraph + 1)))
          "\x7bend_para\x7d" (toString chunk.endParagraph))
          "\x7bprogress\x7d"
          (toString chunk.endParagraph ++ "/" ++ toString (totalOf novel))) ++ "\n\n"
  let body :=
    if settings.collapseContent then
      createCollapsibleContent chunk.content originalText now
    else chunk.content
  prefixPart ++ body ++ "\n\n[小说注入器 - 自动注入]"

/-! ### The act-path (`handleInterception` and the dispatch wrapper) -/

/-- Result of one act-path invocation: the post state, the string handed
to the dispatch boundary (`originalSendMessage`), the chunk produced (if
any), and whether the exhaustion notification fired. -/
structure ActResult where
  state : EngineState
  dispatched : String
  chunk : Option Chunk
  exhausted : Bool
deriving Repr, DecidableEq

/-- `injectionEngine.handleInterception`: no chunk means the novel is
exhausted — warn, disable, and deliver the original text; otherwise
deliver the formatted chunk. -/
def handleInterception (st : EngineState) (originalText : String) (now : Nat) :
    ActResult :=
  match engineGetNextChunk st with
  | (none, st₁) =>
    { state := disable st₁, dispatched := originalText, chunk := none,
      exhausted := true }
  | (some c, st₁) =>
    let novel :=
      match st₁.activeNovelId with
      | none => none
      | some nid => getNovel st₁.novels nid
    { state := st₁,
      dispatched := formatChunkContent st₁.settings novel c originalText now,
      chunk := some c, exhausted := false }

/-- The monkey-patched `sendTextareaMessage` wrapper: intercept or pass
the text through unchanged. -/
def sendTextareaMessage (st : EngineState) (text : String) (now : Nat) : ActResult :=
  if shouldInterceptMessage st text then handleInterception st text now
  else { state := st, dispatched := text, chunk := none, exhausted := false }

/-- `injectionEngine.onAIMessageReceived`: the external turn-complete
signal.  Guards mirror the source; arming replaces any previously armed
timer (`clearTimeout` then `setTimeout`), modelled by overwriting the
optional fire time with `now + autoPilotDelay`. -/
def onAIMessageReceived (st : EngineState) (now : Nat) : EngineState :=
  if !st.isAutoPilotEnabled || !st.isEnabled || optIdFalsy st.activeNovelId then st
  else { st with autoPilotTimer := some (now + st.autoPilotDelay) }

/-! ### The repeated-delivery process (claim C1) -/

/-- One round of §4.2 step 3: extract the chunk at the cursor, then
advance the cursor to the chunk's `endParagraph` through the
`updateProgress` clamp.  `none` when the chunker reports no chunk. -/
def deliveryStep (paragraphs : List String) (target : Nat) (cursor : Nat) :
    Option Nat :=
  match getNextChunk paragraphs cursor target with
  | none => none
  | some c => some (clampProgress paragraphs.length c.endParagraph)

/-- The cursor after `n` rounds of `deliveryStep` starting from `cursor`
(stopping early on exhaustion). -/
def cursorTrace (paragraphs : List String) (target : Nat) :
    Nat → Nat → Nat
  | 0, cursor => cursor
  | n + 1, cursor =>
    match deliveryStep paragraphs target cursor with
    | none => cursor
    | some cursor' => cursorTrace paragraphs target n cursor'

/-! ### Concrete fixtures used by evaluation theorems and witnesses -/

def novel0 : Novel :=
  { title := "t", paragraphs := ["hello"], totalParagraphs := 1, currentParagraph := 0 }

def chunk0 : Chunk :=
  { content := "hello", startParagraph := 0, endParagraph := 1,
    paragraphCount := 1, wordCount := 1, chapter := "第1章" }

def settings0 : Settings :=
  { prefixTemplate := none, collapseContent := false, targetWordCount := 0 }

def settingsC : Settings :=
  { prefixTemplate := none, collapseContent := true, targetWordCount := 0 }

def stEnabled : EngineState :=
  { isEnabled := true, activeNovelId := some "n1", isAutoPilotEnabled := false,
    autoPilotDelay := 3000, autoPilotTimer := none, settings := settings0,
    novels := [("n1", novel0)] }

def stAuto : EngineState :=
  { stEnabled with isAutoPilotEnabled := true, autoPilotDelay := 3000 }

end NovelInjector

namespace NovelInjector

/-! ## Theorems for the claims -/

/-- C2: `fileManager.updateProgress` clamps the cursor into
`[0, totalParagraphs - 1]` for every integer argument, so the cursor
never reaches `totalParagraphs` and the engine's exhaustion test
`currentParagraph >= totalParagraphs` cannot be made true by an ordinary
progress update (the `0 ≤` part is inherent in the `Nat`-valued cursor
produced by the clamp). -/
theorem c2_progress_clamped (novel : Novel) (p : Int)
    (h : 1 ≤ novel.totalParagraphs) :
    (updateProgress novel p).currentParagraph ≤ novel.totalParagraphs - 1 ∧
    (updateProgress novel p).currentParagraph < novel.totalParagraphs := by
  unfold updateProgress clampProgress
  simp only
  omega

theorem c2_progress_clamped_witness :
    1 ≤ novel0.totalParagraphs ∧
    (updateProgress novel0 5).currentParagraph ≤ novel0.totalParagraphs - 1 ∧
    (updateProgress novel0 5).currentParagraph < novel0.totalParagraphs :=
  ⟨by decide, c2_progress_clamped novel0 5 (by decide)⟩

/-- C1 (failing evaluation): with the one-paragraph novel `["hello"]` and
budget 500, the chunk covers `[0, 1)` and its `endParagraph` equals the
paragraph count 1, but advancing the cursor through the
`updateProgress` clamp yields 0, not 1; iterating the
extract-then-advance process therefore leaves the cursor at 0 forever —
the final paragraph is re-consumed on every round, the chunks overlap,
and the cursor never reaches the paragraph count. -/
theorem c1_delivery_never_terminates :
    (getNextChunk ["hello"] 0 500).map Chunk.endParagraph = some 1 ∧
    clampProgress 1 1 = 0 ∧
    deliveryStep ["hello"] 500 0 = some 0 ∧
    (∀ n, cursorTrace ["hello"] 500 n 0 = 0) := by
  refine ⟨by decide, by decide, by decide, ?_⟩
  have hstep : deliveryStep ["hello"] 500 0 = some 0 := by decide
  intro n
  induction n with
  | zero => rfl
  | succ n ih => simpa [cursorTrace, hstep] using ih

/-- C3 (failing evaluation): the marker appended by `formatChunkContent`
is `[小说注入器 - 自动注入]`, but `isNovelContent` tests for the substring
`[小说注入器]`, which does not occur in the formatted output; the
formatted chunk is therefore NOT classified as injected content, and the
act-path would intercept it again. -/
theorem c3_marker_mismatch :
    isNovelContent (formatChunkContent settings0 (some novel0) chunk0 "hi" 0) = false ∧
    shouldInterceptMessage stEnabled
      (formatChunkContent settings0 (some novel0) chunk0 "hi" 0) = true := by
  decide

/-- C5 (failing evaluation): with paragraphs `["aa bb cc", "dd"]` and
budget 3, the budget is reached on the first paragraph (3 words), which
does not end in terminal punctuation, and the next paragraph has 1 word —
well below the short-paragraph threshold of 100 — yet the produced chunk
ends at paragraph 1: the absorb-continue branch is immediately undone by
the overshoot check of the next iteration, so the short paragraph is
never absorbed. -/
theorem c5_short_paragraph_not_absorbed :
    countWords "aa bb cc" = 3 ∧
    isGoodBreakPoint "aa bb cc" = false ∧
    countWords "dd" = 1 ∧
    (getNextChunk ["aa bb cc", "dd"] 0 3).map Chunk.endParagraph = some 1 := by
  decide

/-- C7: with interception active and the active novel exhausted
(`currentParagraph >= totalParagraphs`), `handleInterception` disables
the controller (which also cancels any armed autopilot timer), reports
exhaustion, delivers the original text unchanged through the dispatch
boundary, and leaves the novel store untouched. -/
theorem c7_exhaustion_disables_and_passes_through
    (st : EngineState) (nid : String) (novel : Novel) (text : String) (now : Nat)
    (_hen : st.isEnabled = true)
    (hid : st.activeNovelId = some nid)
    (hnov : getNovel st.novels nid = some novel)
    (hexh : novel.totalParagraphs ≤ novel.currentParagraph) :
    (handleInterception st text now).dispatched = text ∧
    (handleInterception st text now).chunk = none ∧
    (handleInterception st text now).exhausted = true ∧
    (handleInterception st text now).state.isEnabled = false ∧
    (handleInterception st text now).state.activeNovelId = none ∧
    (handleInterception st text now).state.autoPilotTimer = none ∧
    (handleInterception st text now).state.novels = st.novels := by
  have hnone : engineGetNextChunk st = (none, st) := by
    unfold engineGetNextChunk
    rw [hid]
    by_cases hnid : nid = ""
    · simp [optIdFalsy, hnid]
    · simp [optIdFalsy, hnid, hnov, hexh]
  unfold handleInterception
  rw [hnone]
  simp [disable]

theorem c7_exhaustion_disables_and_passes_through_witness :
    let stX : EngineState :=
      { stEnabled with novels := [("n1", { novel0 with currentParagraph := 1 })] }
    (handleInterception stX "hi" 0).dispatched = "hi" ∧
    (handleInterception stX "hi" 0).chunk = none ∧
    (handleInterception stX "hi" 0).exhausted = true ∧
    (handleInterception stX "hi" 0).state.isEnabled = false ∧
    (handleInterception stX "hi" 0).state.activeNovelId = none ∧
    (handleInterception stX "hi" 0).state.autoPilotTimer = none ∧
    (handleInterception stX "hi" 0).state.novels = stX.novels :=
  c7_exhaustion_disables_and_passes_through _ "n1"
    { novel0 with currentParagraph := 1 } "hi" 0 rfl rfl (by decide) (by decide)

/-- C8: each external turn-complete signal received while enabled with
autopilot on replaces any previously armed timer with one timed from
that signal (`clearTimeout` then `setTimeout`), so after two rapid
signals exactly one timer is armed, timed from the second; a signal
received while autopilot is off, the controller is disabled, or no novel
is active leaves the state unchanged and arms nothing.  (The model holds
at most one timer by construction — an `Option` fire time.) -/
theorem c8_autopilot_debounce (st : EngineState) (t₁ t₂ : Nat) :
    (st.isAutoPilotEnabled = true → st.isEnabled = true →
      optIdFalsy st.activeNovelId = false →
      (onAIMessageReceived st t₁).autoPilotTimer = some (t₁ + st.autoPilotDelay) ∧
      (onAIMessageReceived (onAIMessageReceived st t₁) t₂).autoPilotTimer =
        some (t₂ + st.autoPilotDelay)) ∧
    (st.isAutoPilotEnabled = false ∨ st.isEnabled = false ∨
      optIdFalsy st.activeNovelId = true →
      onAIMessageReceived st t₁ = st) := by
  constructor
  · intro hap hen hid
    simp [onAIMessageReceived, hap, hen, hid]
  · intro h
    rcases h with h | h | h <;> simp [onAIMessageReceived, h]

theorem c8_autopilot_debounce_witness :
    (stAuto.isAutoPilotEnabled = true → stAuto.isEnabled = true →
      optIdFalsy stAuto.activeNovelId = false →
      (onAIMessageReceived stAuto 5).autoPilotTimer = some (5 + stAuto.autoPilotDelay) ∧
      (onAIMessageReceived (onAIMessageReceived stAuto 5) 7).autoPilotTimer =
        some (7 + stAuto.autoPilotDelay)) ∧
    (onAIMessageReceived stAuto 5).autoPilotTimer = some 3005 ∧
    (onAIMessageReceived (onAIMessageReceived stAuto 5) 7).autoPilotTimer = some 3007 := by
  refine ⟨(c8_autopilot_debounce stAuto 5 7).1, ?_, ?_⟩
  · exact ((c8_autopilot_debounce stAuto 5 7).1 rfl rfl (by decide)).1
  · exact ((c8_autopilot_debounce stAuto 5 7).1 rfl rfl (by decide)).2

/-- C9: when the controller is disabled or has no active novel id, the
dispatch wrapper passes the text through unchanged, produces no chunk,
and leaves the whole state — in particular every novel's cursor —
unchanged. -/
theorem c9_disabled_passthrough (st : EngineState) (text : String) (now : Nat)
    (h : st.isEnabled = false ∨ st.activeNovelId = none) :
    sendTextareaMessage st text now =
      { state := st, dispatched := text, chunk := none, exhausted := false } := by
  have hno : shouldInterceptMessage st text = false := by
    rcases h with h | h <;> simp [shouldInterceptMessage, optIdFalsy, h]
  simp [sendTextareaMessage, hno]

theorem c9_disabled_passthrough_witness :
    sendTextareaMessage (disable stEnabled) "hi" 0 =
      { state := disable stEnabled, dispatched := "hi", chunk := none,
        exhausted := false } :=
  c9_disabled_passthrough (disable stEnabled) "hi" 0 (Or.inl rfl)

/-! ## Chunker loop lemmas -/

/-- One-step unfolding of `walk` on a cons cell. -/
theorem walk_cons (target : Nat) (p : String) (rest : List String)
    (i total : Nat) (acc : List String) (endP : Nat) :
    walk target (p :: rest) i total acc endP =
      if 0 < total ∧ target < total + countWords p then (acc, total, endP)
      else
        if target ≤ total + countWords p then
          if isGoodBreakPoint p then (acc ++ [p], total + countWords p, i + 1)
          else
            match rest with
            | [] => (acc ++ [p], total + countWords p, i + 1)
            | next :: _ =>
              if countWords next < 100 then
                walk target rest (i + 1) (total + countWords p) (acc ++ [p]) (i + 1)
              else (acc ++ [p], total + countWords p, i + 1)
        else walk target rest (i + 1) (total + countWords p) (acc ++ [p]) (i + 1) :=
  rfl

/-- Once the running count strictly exceeds the budget, the loop breaks
immediately: every further paragraph would overshoot a non-empty chunk. -/
theorem walk_overshoot (target : Nat) (rest : List String) (i total : Nat)
    (acc : List String) (endP : Nat) (h : target < total) :
    walk target rest i total acc endP = (acc, total, endP) := by
  cases rest with
  | nil => rfl
  | cons p r =>
    rw [walk_cons, if_pos]
    exact ⟨by omega, by have := Nat.le_add_right total (countWords p); omega⟩

/-- A first paragraph strictly larger than the budget is consumed alone:
whatever the break-point and short-next checks say, the next iteration's
overshoot check stops the chunk right after it. -/
theorem walk_oversized (target : Nat) (p : String) (rest : List String)
    (i : Nat) (acc : List String) (h : target < countWords p) :
    walk target (p :: rest) i 0 acc i = (acc ++ [p], countWords p, i + 1) := by
  rw [walk_cons, if_neg (by simp), if_pos (by omega : target ≤ 0 + countWords p)]
  by_cases hbp : isGoodBreakPoint p
  · simp [hbp]
  · simp only [hbp, if_false, Bool.false_eq_true]
    cases rest with
    | nil => simp
    | cons next r =>
      dsimp only
      by_cases hshort : countWords next < 100
      · rw [if_pos hshort, walk_overshoot _ _ _ _ _ _ (by omega : target < 0 + countWords p)]
        simp
      · rw [if_neg hshort]
        simp

/-- The shape of the `∃ k` characterisation of a `walk` call that starts
at suffix `rest`/absolute index `i` with running count `total` and
already-collected list `acc`. -/
def WalkSpec (target : Nat) (rest : List String) (i total : Nat)
    (acc : List String) : Prop :=
  ∃ k, k ≤ rest.length ∧
    walk target rest i total acc i =
      (acc ++ rest.take k, total + wsum (rest.take k), i + k) ∧
    (rest ≠ [] → total = 0 → 1 ≤ k) ∧
    (∀ j, j < k → 0 < total + wsum (rest.take j) →
      total + wsum (rest.take (j + 1)) ≤ target)

/-- Auxiliary step: a loop iteration that accepts `p` and stops. -/
theorem walkSpec_of_stop (target : Nat) (p : String) (rest : List String)
    (i total : Nat) (acc : List String)
    (hacc : total = 0 ∨ total + countWords p ≤ target)
    (hstop : walk target (p :: rest) i total acc i =
      (acc ++ [p], total + countWords p, i + 1)) :
    WalkSpec target (p :: rest) i total acc := by
  refine ⟨1, by simp, ?_, fun _ _ => le_refl 1, ?_⟩
  · rw [hstop]
    simp [wsum]
  · intro j hj h0
    have hj0 : j = 0 := by omega
    subst hj0
    simp [wsum] at h0 ⊢
    rcases hacc with h | h
    · omega
    · omega

/-- Auxiliary step: a loop iteration that accepts `p` and recurses. -/
theorem walkSpec_of_rec (target : Nat) (p : String) (rest : List String)
    (i total : Nat) (acc : List String)
    (hacc : total = 0 ∨ total + countWords p ≤ target)
    (hstep : walk target (p :: rest) i total acc i =
      walk target rest (i + 1) (total + countWords p) (acc ++ [p]) (i + 1))
    (ih : WalkSpec target rest (i + 1) (total + countWords p) (acc ++ [p])) :
    WalkSpec target (p :: rest) i total acc := by
  obtain ⟨k, hk, heq, _, hcond⟩ := ih
  refine ⟨k + 1, by simp; omega, ?_, fun _ _ => by omega, ?_⟩
  · rw [hstep, heq]
    have hl : acc ++ (p :: rest).take (k + 1) = (acc ++ [p]) ++ rest.take k := by
      rw [List.take_succ_cons, List.append_cons]
    have hw : wsum ((p :: rest).take (k + 1)) = countWords p + wsum (rest.take k) := by
      rw [List.take_succ_cons]
      simp [wsum]
    rw [hl, hw]
    simp only [Prod.mk.injEq, true_and]
    exact ⟨by omega, by omega⟩
  · intro j hj h0
    cases j with
    | zero =>
      simp [wsum] at h0 ⊢
      rcases hacc with h | h
      · omega
      · omega
    | succ j' =>
      have h1 := hcond j' (by omega)
      simp only [List.take_succ_cons, wsum, List.map_cons, List.sum_cons] at h0 h1 ⊢
      omega

/-- Full characterisation of the collection loop: it consumes some
non-empty prefix `rest.take k`, the end index advances by exactly `k`,
the word count is the sum over the consumed prefix, and every acceptance
made while the running count was positive stayed within the budget. -/
theorem walk_spec (target : Nat) (rest : List String) :
    ∀ (i total : Nat) (acc : List String), WalkSpec target rest i total acc := by
  induction rest with
  | nil =>
    intro i total acc
    exact ⟨0, by simp, by simp [walk, wsum], by simp, by omega⟩
  | cons p rest ih =>
    intro i total acc
    by_cases hbrk : 0 < total ∧ target < total + countWords p
    · refine ⟨0, by simp, ?_, ?_, by omega⟩
      · rw [walk_cons, if_pos hbrk]
        simp [wsum]
      · intro _ h0
        omega
    · have hacc : total = 0 ∨ total + countWords p ≤ target := by
        rcases Nat.eq_zero_or_pos total with h | h
        · exact Or.inl h
        · right; by_contra hc; exact hbrk ⟨h, by omega⟩
      by_cases htgt : target ≤ total + countWords p
      · by_cases hbp : isGoodBreakPoint p
        · refine walkSpec_of_stop _ _ _ _ _ _ hacc ?_
          rw [walk_cons, if_neg hbrk, if_pos htgt]
          simp [hbp]
        · cases rest with
          | nil =>
            refine walkSpec_of_stop _ _ _ _ _ _ hacc ?_
            rw [walk_cons, if_neg hbrk, if_pos htgt]
            simp [hbp]
          | cons next r =>
            by_cases hshort : countWords next < 100
            · refine walkSpec_of_rec _ _ _ _ _ _ hacc ?_ (ih _ _ _)
              rw [walk_cons, if_neg hbrk, if_pos htgt]
              simp [hbp, hshort]
            · refine walkSpec_of_stop _ _ _ _ _ _ hacc ?_
              rw [walk_cons, if_neg hbrk, if_pos htgt]
              simp [hbp, hshort]
      · refine walkSpec_of_rec _ _ _ _ _ _ hacc ?_ (ih _ _ _)
        rw [walk_cons, if_neg hbrk, if_neg htgt]

/-- `String.intercalate` of a single string is that string. -/
theorem intercalate_single (s a : String) : String.intercalate s [a] = a := rfl

/-- Characterisation of `getNextChunk` on an in-range cursor, assembled
from `walk_spec`: the chunk exists, starts at the cursor, consumes at
least one paragraph, stays inside the novel, an oversized first
paragraph is consumed alone, and every later acceptance made with a
positive running count stays within the budget. -/
theorem getNextChunk_spec (ps : List String) (s target : Nat)
    (h : s < ps.length) :
    ∃ c, getNextChunk ps s target = some c ∧
      c.startParagraph = s ∧
      s < c.endParagraph ∧ c.endParagraph ≤ ps.length ∧
      1 ≤ c.paragraphCount ∧
      (target < countWords (ps.getD s "") →
        c.endParagraph = s + 1 ∧ c.paragraphCount = 1 ∧
        c.content = ps.getD s "") ∧
      (∀ j, s ≤ j → j < c.endParagraph → 0 < wsumRange ps s j →
        wsumRange ps s (j + 1) ≤ target) := by
  obtain ⟨k, hk, heq, hne, hcond⟩ := walk_spec target (ps.drop s) s 0 []
  have hdropne : ps.drop s ≠ [] := by
    simp only [ne_eq, List.drop_eq_nil_iff]
    omega
  have hk1 : 1 ≤ k := hne hdropne rfl
  have hdlen : (ps.drop s).length = ps.length - s := List.length_drop s ps
  have hcons : ps.drop s = ps.getD s "" :: ps.drop (s + 1) := by
    rw [List.getD_eq_getElem ps "" h]
    exact List.drop_eq_getElem_cons h
  have htake_ne : (ps.drop s).take k ≠ [] := by
    rw [hcons]
    cases k with
    | zero => omega
    | succ k' => simp
  unfold getNextChunk
  rw [if_neg (by omega : ¬ ps.length ≤ s), heq]
  simp only [List.nil_append, Nat.zero_add]
  rw [if_neg htake_ne]
  refine ⟨_, rfl, rfl, by dsimp only; omega, by dsimp only; omega, ?_, ?_, ?_⟩
  · dsimp only
    simp only [List.length_take, hdlen]
    omega
  · intro hover
    dsimp only
    have hov := walk_oversized target (ps.getD s "") (ps.drop (s + 1)) s [] hover
    rw [hcons] at heq
    have hepq : ([] ++ ((ps.getD s "" :: ps.drop (s + 1)).take k),
        0 + wsum ((ps.getD s "" :: ps.drop (s + 1)).take k), s + k) =
        ([] ++ [ps.getD s ""], countWords (ps.getD s ""), s + 1) := by
      rw [← heq, hov]
    have hkone : k = 1 := by
      have := congrArg (fun t => t.2.2) hepq
      simp only at this
      omega
    subst hkone
    rw [hcons]
    refine ⟨rfl, ?_, ?_⟩
    · simp
    · simp only [List.take_succ_cons, List.take_zero]
      exact intercalate_single _ _
  · intro j hsj hjlt h0
    dsimp only at hjlt
    have h1 := hcond (j - s) (by omega) (by
      simp only [wsumRange] at h0
      omega)
    simp only [wsumRange] at h0 ⊢
    rw [show j + 1 - s = (j - s) + 1 by omega]
    omega

/-- C6: the chunker's acceptance rule — see `getNextChunk_spec`: for an
in-range start index the chunk exists and contains at least one
paragraph; an oversized first paragraph (word count above the budget) is
consumed alone; and any paragraph accepted while the running count `W`
was positive kept `W` within the budget, so a non-empty chunk never
overshoots. -/
theorem c6_acceptance_rule (ps : List String) (s target : Nat)
    (h : s < ps.length) :
    ∃ c, getNextChunk ps s target = some c ∧
      c.startParagraph = s ∧
      s < c.endParagraph ∧ c.endParagraph ≤ ps.length ∧
      1 ≤ c.paragraphCount ∧
      (target < countWords (ps.getD s "") →
        c.endParagraph = s + 1 ∧ c.paragraphCount = 1 ∧
        c.content = ps.getD s "") ∧
      (∀ j, s ≤ j → j < c.endParagraph → 0 < wsumRange ps s j →
        wsumRange ps s (j + 1) ≤ target) :=
  getNextChunk_spec ps s target h

theorem c6_acceptance_rule_witness :
    (0 : Nat) < (["x"] : List String).length ∧
    ∃ c, getNextChunk ["x"] 0 500 = some c ∧
      c.startParagraph = 0 ∧
      0 < c.endParagraph ∧ c.endParagraph ≤ (["x"] : List String).length ∧
      1 ≤ c.paragraphCount ∧
      (500 < countWords ((["x"] : List String).getD 0 "") →
        c.endParagraph = 0 + 1 ∧ c.paragraphCount = 1 ∧
        c.content = (["x"] : List String).getD 0 "") ∧
      (∀ j, 0 ≤ j → j < c.endParagraph → 0 < wsumRange ["x"] 0 j →
        wsumRange ["x"] 0 (j + 1) ≤ 500) :=
  ⟨by decide, c6_acceptance_rule ["x"] 0 500 (by decide)⟩

/-- C10: the chunker reports no chunk exactly when the start index is at
or past the end of the paragraph sequence; in particular the empty
paragraph list with cursor 0 yields no chunk. -/
theorem c10_no_chunk_iff_end :
    (∀ (ps : List String) (s target : Nat),
      getNextChunk ps s target = none ↔ ps.length ≤ s) ∧
    getNextChunk [] 0 500 = none := by
  have hmain : ∀ (ps : List String) (s target : Nat),
      getNextChunk ps s target = none ↔ ps.length ≤ s := by
    intro ps s target
    constructor
    · intro hnone
      by_contra hlt
      obtain ⟨c, hc, -⟩ := getNextChunk_spec ps s target (by omega)
      rw [hc] at hnone
      exact Option.noConfusion hnone
    · intro hge
      unfold getNextChunk
      rw [if_pos hge]
  exact ⟨hmain, (hmain [] 0 500).mpr (by simp)⟩

/-! ## Substring lemmas for the formatting claims -/

theorem isPrefixOf_self_append (m r : List Char) :
    List.isPrefixOf m (m ++ r) = true := by
  induction m with
  | nil => simp
  | cons c cs ih => simp [List.isPrefixOf, ih]

theorem occursIn_nil_pat (l : List Char) : occursIn [] l = true := by
  cases l with
  | nil => rfl
  | cons c rest => simp [occursIn, List.isPrefixOf]

theorem occursIn_here (m r : List Char) : occursIn m (m ++ r) = true := by
  cases m with
  | nil => exact occursIn_nil_pat r
  | cons c cs => simp [occursIn, isPrefixOf_self_append]

theorem occursIn_prepend (a : List Char) {m X : List Char}
    (h : occursIn m X = true) : occursIn m (a ++ X) = true := by
  induction a with
  | nil => simpa using h
  | cons c a' ih => simp [occursIn, ih]

theorem data_append (s t : String) : (s ++ t).data = s.data ++ t.data := rfl

/-- C4 counterexample: in plain (non-collapse) mode the formatted output
discards the original input — with collapse off, `formatChunkContent`
never mentions `originalText`, so the non-empty original `"hi"` does not
occur in the delivered string. -/
theorem c4_original_text_discarded_plain_mode :
    settings0.collapseContent = false ∧
    jsIncludes (formatChunkContent settings0 (some novel0) chunk0 "hi" 0) "hi" =
      false := by
  decide

/-- C4 (amended): only in collapse mode is the original input preserved —
for every configuration with collapse mode on and every non-empty
original text, the formatted output contains the original text verbatim
(appended after the foldable block on a `用户原始输入:` line). -/
theorem c4_collapse_mode_preserves_original (settings : Settings)
    (novel : Option Novel) (chunk : Chunk) (originalText : String) (now : Nat)
    (hc : settings.collapseContent = true) (ho : originalText ≠ "") :
    jsIncludes (formatChunkContent settings novel chunk originalText now)
      originalText = true := by
  unfold jsIncludes formatChunkContent createCollapsibleContent
  simp only [hc, ho, if_true, if_false, ite_true, ite_false, if_neg]
  simp only [data_append, List.append_assoc]
  repeat (first | exact occursIn_here _ _ | apply occursIn_prepend)

theorem c4_collapse_mode_preserves_original_witness :
    settingsC.collapseContent = true ∧ ("hi" : String) ≠ "" ∧
    jsIncludes (formatChunkContent settingsC (some novel0) chunk0 "hi" 7) "hi" =
      true :=
  ⟨rfl, by decide,
    c4_collapse_mode_preserves_original settingsC (some novel0) chunk0 "hi" 7
      rfl (by decide)⟩

end NovelInjector
